import Mathlib

/-!
Verification of the Cross-Account Lambda Lister.

Shallow embedding of `src/CrossAccountLambdaLister.py`.  The external AWS
services (organization directory, region catalog, role assumption, paginated
function inventory, per-function configuration fetch) are modelled as explicit
oracle fields of environment structures; the program logic itself (the static
deprecation catalog, the catalog lookup, the per-account/region enumerator and
the cross-account orchestrator) is translated directly from the source.
-/

/-- A record of the static runtime deprecation table: the pair
`deprecated`/`date` stored under each runtime key. -/
structure DeprecationRecord where
  deprecated : Bool
  date : String
deriving DecidableEq, Repr

/-- The static table `RUNTIME_DEPRECATIONS` from the source, as an association
list from runtime identifier to its deprecation record. -/
def RUNTIME_DEPRECATIONS : List (String × DeprecationRecord) :=
  [ ("dotnet6", ⟨false, "2024-11-12"⟩),
    ("dotnet7", ⟨false, "N/A"⟩),
    ("dotnetcore1.0", ⟨true, "2019-07-30"⟩),
    ("dotnetcore2.0", ⟨true, "2019-05-30"⟩),
    ("dotnetcore2.1", ⟨true, "2022-01-05"⟩),
    ("dotnetcore3.1", ⟨true, "2023-04-03"⟩),
    ("go1.x", ⟨false, "2024-07-12"⟩),
    ("go2.x", ⟨false, "N/A"⟩),
    ("java8", ⟨false, "2024-01-08"⟩),
    ("java8.al2", ⟨false, "2025-05-30"⟩),
    ("java11", ⟨false, "2025-01-08"⟩),
    ("java17", ⟨false, "2026-09-14"⟩),
    ("java21", ⟨false, "N/A"⟩),
    ("nodejs", ⟨true, "2016-10-31"⟩),
    ("nodejs4.3", ⟨true, "2020-04-06"⟩),
    ("nodejs4.3-edge", ⟨true, "2019-04-30"⟩),
    ("nodejs6.10", ⟨true, "2019-08-12"⟩),
    ("nodejs8.10", ⟨true, "2020-03-06"⟩),
    ("nodejs10.x", ⟨true, "2022-02-14"⟩),
    ("nodejs12.x", ⟨true, "2023-03-31"⟩),
    ("nodejs14.x", ⟨false, "2024-11-27"⟩),
    ("nodejs16.x", ⟨false, "2025-06-12"⟩),
    ("nodejs18.x", ⟨false, "2025-06-12"⟩),
    ("nodejs20.x", ⟨false, "N/A"⟩),
    ("provided", ⟨false, "N/A"⟩),
    ("provided.al2", ⟨false, "N/A"⟩),
    ("provided.al2023", ⟨false, "N/A"⟩),
    ("python2.7", ⟨true, "2021-07-15"⟩),
    ("python3.6", ⟨true, "2022-07-18"⟩),
    ("python3.7", ⟨true, "2023-11-27"⟩),
    ("python3.8", ⟨false, "2024-10-14"⟩),
    ("python3.9", ⟨false, "2025-08-24"⟩),
    ("python3.10", ⟨false, "2026-07-30"⟩),
    ("python3.11", ⟨false, "2027-09-24"⟩),
    ("python3.12", ⟨false, "N/A"⟩),
    ("ruby2.5", ⟨true, "2022-07-30"⟩),
    ("ruby2.6", ⟨true, "2022-05-30"⟩),
    ("ruby2.7", ⟨false, "2023-11-07"⟩),
    ("ruby3.2", ⟨false, "2026-04-09"⟩) ]

/-- `get_deprecation_info` from the source: look the runtime up in the static
table and format the deprecation status string. -/
def get_deprecation_info (runtime : String) : String :=
  match RUNTIME_DEPRECATIONS.lookup runtime with
  | some info =>
      if info.deprecated then "Deprecated since " ++ info.date
      else if info.date = "N/A" then "No scheduled deprecation"
      else "Will be deprecated on " ++ info.date
  | none => "No deprecation information available"

/-- A function summary as yielded by a page of the paginated `list_functions`
inventory call: the source reads the `FunctionName` and `FunctionArn` keys. -/
structure FunctionSummary where
  functionName : String
  functionArn : String
deriving DecidableEq, Repr

/-- A Function Report Row: the dictionary appended to `functions` by
`list_functions_in_account`, with exactly its six keys `AccountId`, `Region`,
`FunctionName`, `FunctionArn`, `Runtime`, `DeprecationInfo`. -/
structure FunctionReportRow where
  accountId : String
  region : String
  functionName : String
  functionArn : String
  runtime : String
  deprecationInfo : String
deriving DecidableEq, Repr

/-- Oracle for one account/region pair's function-inventory service.
`fullPages` is the full paginated sequence the service would yield;
`failAfter = some k` means the paginated listing raises a `ClientError` after
yielding its first `k` pages (client creation failing is `some 0`), `none`
means the listing completes normally.  `getConfig name` is the outcome of
`get_function_configuration` for `name`: `Except.error ()` is a `ClientError`,
`Except.ok rt?` is a successful response whose optional `Runtime` key is
`rt?` (the source defaults a missing key to "Unknown" via `.get`). -/
structure RegionEnv where
  fullPages : List (List FunctionSummary)
  failAfter : Option Nat
  getConfig : String → Except Unit (Option String)

/-- The pages actually yielded by the paginator before it either completes or
raises: all of them, or the first `k` when the listing fails after `k`. -/
def RegionEnv.yieldedPages (env : RegionEnv) : List (List FunctionSummary) :=
  match env.failAfter with
  | none => env.fullPages
  | some k => env.fullPages.take k

/-- The body of the inner per-function loop of `list_functions_in_account`:
try the configuration fetch; on success resolve the runtime (defaulting a
missing `Runtime` key to "Unknown") and derive the status through
`get_deprecation_info`; on a `ClientError` substitute the sentinels. -/
def processFunction (env : RegionEnv) (account_id region : String)
    (f : FunctionSummary) : FunctionReportRow :=
  match env.getConfig f.functionName with
  | Except.ok rt? =>
      let runtime := rt?.getD "Unknown"
      { accountId := account_id, region := region,
        functionName := f.functionName, functionArn := f.functionArn,
        runtime := runtime, deprecationInfo := get_deprecation_info runtime }
  | Except.error _ =>
      { accountId := account_id, region := region,
        functionName := f.functionName, functionArn := f.functionArn,
        runtime := "Error retrieving", deprecationInfo := "Unknown" }

/-- `list_functions_in_account` from the source: fold over the pages the
paginator yields, appending one row per function summary to the accumulator
`functions`; the surrounding try/except returns the accumulator both on
normal completion and when the listing raises (the raise is what truncates
`yieldedPages`). -/
def list_functions_in_account (env : RegionEnv) (account_id region : String) :
    List FunctionReportRow :=
  env.yieldedPages.foldl
    (fun functions page =>
      page.foldl
        (fun functions f => functions ++ [processFunction env account_id region f])
        functions)
    []

/-- Oracle environment for `lambda_handler`: the organization directory
(account ids in listing order), the region catalog (in listing order),
the role-assumption outcome per account id, and the function-inventory
oracle per account/region pair. -/
structure OrgEnv where
  accounts : List String
  regions : List String
  assumeRoleOk : String → Bool
  regionEnv : String → String → RegionEnv

/-- The value returned by `lambda_handler`: a status code and the aggregate
row list placed in the body. -/
structure HandlerResult where
  statusCode : Nat
  body : List FunctionReportRow

/-- `lambda_handler` from the source: for each account in directory order,
attempt role assumption; on failure skip the account; on success iterate the
regions in listing order, extending `all_functions` with the enumerator's
rows; finally wrap the aggregate in a status-200 envelope. -/
def lambda_handler (env : OrgEnv) : HandlerResult :=
  let all_functions :=
    env.accounts.foldl
      (fun all_functions account_id =>
        if env.assumeRoleOk account_id then
          env.regions.foldl
            (fun all_functions region =>
              all_functions ++
                list_functions_in_account (env.regionEnv account_id region)
                  account_id region)
            all_functions
        else all_functions)
      []
  { statusCode := 200, body := all_functions }

/-! ### Concrete test environments -/

/-- A one-function inventory whose configuration fetch always succeeds. -/
def c1Env : RegionEnv :=
  ⟨[[⟨"f1", "arn:f1"⟩]], none, fun _ => Except.ok (some "python3.12")⟩

/-- The row the enumerator produces for the single function of `c1Env`. -/
def c1Row : FunctionReportRow :=
  ⟨"111111111111", "us-east-1", "f1", "arn:f1", "python3.12",
   "No scheduled deprecation"⟩

/-- Two pages with three functions; the configuration fetch fails exactly for
the middle function "f2". -/
def c3Env : RegionEnv :=
  ⟨[[⟨"f1", "arn:f1"⟩, ⟨"f2", "arn:f2"⟩], [⟨"f3", "arn:f3"⟩]], none,
   fun name => if name = "f2" then Except.error () else Except.ok (some "nodejs4.3")⟩

/-- Two pages of one function each; the paginated listing raises after
yielding the first page. -/
def c4Env : RegionEnv :=
  ⟨[[⟨"g1", "arn:g1"⟩], [⟨"g2", "arn:g2"⟩]], some 1,
   fun _ => Except.ok (some "go1.x")⟩

/-- A one-function inventory used for every pair of the two-account org. -/
def c5RegionEnv : RegionEnv :=
  ⟨[[⟨"h1", "arn:h1"⟩]], none, fun _ => Except.ok (some "java21")⟩

/-- Two accounts, one region; role assumption fails for the first account and
succeeds for the second. -/
def c5Env : OrgEnv :=
  ⟨["111111111111", "222222222222"], ["us-east-1"],
   fun account_id => account_id == "222222222222",
   fun _ _ => c5RegionEnv⟩

/-- An organization with zero accounts. -/
def c6Env : OrgEnv :=
  ⟨[], ["us-east-1"], fun _ => true,
   fun _ _ => ⟨[], none, fun _ => Except.error ()⟩⟩

/-- One account, one region, one function whose configuration fetch fails. -/
def c10Env : OrgEnv :=
  ⟨["333333333333"], ["eu-west-1"], fun _ => true,
   fun _ _ => ⟨[[⟨"k1", "arn:k1"⟩]], none, fun _ => Except.error ()⟩⟩

/-- The row the enumerator produces for the single function of `c10Env`. -/
def c10Row : FunctionReportRow :=
  ⟨"333333333333", "eu-west-1", "k1", "arn:k1", "Error retrieving", "Unknown"⟩

/-! ### Structural lemmas -/

/-- Folding an append-one-element step is `init ++ map`. -/
theorem foldl_append_singleton {α β : Type} (g : α → β) :
    ∀ (l : List α) (init : List β),
      l.foldl (fun acc a => acc ++ [g a]) init = init ++ l.map g := by
  intro l
  induction l with
  | nil => intro init; simp
  | cons a l ih => intro init; simp [ih]

/-- Folding an append step is `init ++ bind`. -/
theorem foldl_append_flatMap {α β : Type} (g : α → List β) :
    ∀ (l : List α) (init : List β),
      l.foldl (fun acc a => acc ++ g a) init = init ++ l.flatMap g := by
  intro l
  induction l with
  | nil => intro init; simp
  | cons a l ih => intro init; simp [ih]

/-- The enumerator is the map of the per-function body over all yielded
function summaries, in upstream order. -/
theorem list_functions_eq_map (env : RegionEnv) (account_id region : String) :
    list_functions_in_account env account_id region
      = env.yieldedPages.flatten.map (processFunction env account_id region) := by
  unfold list_functions_in_account
  have hpage : ∀ (pages : List (List FunctionSummary)) (init : List FunctionReportRow),
      pages.foldl
        (fun functions page =>
          page.foldl
            (fun functions f => functions ++ [processFunction env account_id region f])
            functions)
        init
      = init ++ pages.flatten.map (processFunction env account_id region) := by
    intro pages
    induction pages with
    | nil => intro init; simp
    | cons p ps ih =>
        intro init
        simp [ih, foldl_append_singleton (processFunction env account_id region) p init]
  simpa using hpage env.yieldedPages []

/-- The handler body is the concatenation, over the accounts whose role
assumption succeeds (in directory order) and then over the regions (in
listing order), of the enumerator's per-pair row lists. -/
theorem lambda_handler_body_eq (env : OrgEnv) :
    (lambda_handler env).body
      = (env.accounts.filter env.assumeRoleOk).flatMap
          (fun account_id =>
            env.regions.flatMap
              (fun region =>
                list_functions_in_account (env.regionEnv account_id region)
                  account_id region)) := by
  show env.accounts.foldl _ [] = _
  have hstep : ∀ (accs : List String) (init : List FunctionReportRow),
      accs.foldl
        (fun all_functions account_id =>
          if env.assumeRoleOk account_id then
            env.regions.foldl
              (fun all_functions region =>
                all_functions ++
                  list_functions_in_account (env.regionEnv account_id region)
                    account_id region)
              all_functions
          else all_functions)
        init
      = init ++ (accs.filter env.assumeRoleOk).flatMap
          (fun account_id =>
            env.regions.flatMap
              (fun region =>
                list_functions_in_account (env.regionEnv account_id region)
                  account_id region)) := by
    intro accs
    induction accs with
    | nil => intro init; simp
    | cons a accs ih =>
        intro init
        by_cases ha : env.assumeRoleOk a
        · simp only [List.foldl_cons, ha, if_pos]
          rw [foldl_append_flatMap
            (fun region =>
              list_functions_in_account (env.regionEnv a region) a region)
            env.regions init, ih]
          simp [List.filter_cons, ha]
        · simp only [List.foldl_cons, ha, if_neg, ih]
          simp [List.filter_cons, ha]
  simpa using hstep env.accounts []

/-- Association-list lookup misses exactly the non-keys. -/
theorem lookup_eq_none_of_not_mem_keys {α : Type} (l : List (String × α))
    (s : String) (h : s ∉ l.map Prod.fst) : l.lookup s = none := by
  induction l with
  | nil => rfl
  | cons p t ih =>
      rcases p with ⟨k, v⟩
      simp only [List.map_cons, List.mem_cons] at h
      push_neg at h
      obtain ⟨h1, h2⟩ := h
      have hb : (s == k) = false := beq_eq_false_iff_ne.mpr h1
      simp [List.lookup, hb, ih h2]

/-- A successful association-list lookup returns a pair of the list. -/
theorem mem_of_lookup_eq_some {α : Type} (l : List (String × α))
    (s : String) (v : α) (h : l.lookup s = some v) : (s, v) ∈ l := by
  induction l with
  | nil => simp [List.lookup] at h
  | cons p t ih =>
      rcases p with ⟨k, v0⟩
      by_cases hs : s = k
      · subst hs
        simp [List.lookup] at h
        rw [← h]
        exact List.mem_cons_self _ _
      · have hb : (s == k) = false := beq_eq_false_iff_ne.mpr hs
        simp only [List.lookup, hb] at h
        exact List.mem_cons_of_mem _ (ih h)

/-- The per-function body preserves the identifying fields: it stamps the
account and region arguments and copies the summary's name and ARN. -/
theorem processFunction_fields (env : RegionEnv) (account_id region : String)
    (f : FunctionSummary) :
    (processFunction env account_id region f).accountId = account_id
    ∧ (processFunction env account_id region f).region = region
    ∧ (processFunction env account_id region f).functionName = f.functionName
    ∧ (processFunction env account_id region f).functionArn = f.functionArn := by
  unfold processFunction
  cases env.getConfig f.functionName <;> simp

/-- The per-function body only consults the configuration oracle of its
environment. -/
theorem processFunction_congr (env env' : RegionEnv) (account_id region : String)
    (hc : env'.getConfig = env.getConfig) (f : FunctionSummary) :
    processFunction env' account_id region f
      = processFunction env account_id region f := by
  unfold processFunction
  rw [hc]

/-- Membership in the enumerator's output. -/
theorem mem_list_functions (env : RegionEnv) (account_id region : String)
    (row : FunctionReportRow) :
    row ∈ list_functions_in_account env account_id region
      ↔ ∃ f ∈ env.yieldedPages.flatten,
          processFunction env account_id region f = row := by
  rw [list_functions_eq_map]
  exact List.mem_map

/-- Every row of the enumerator carries the account and region it was
invoked with. -/
theorem row_fields_of_mem (env : RegionEnv) (account_id region : String)
    (row : FunctionReportRow)
    (h : row ∈ list_functions_in_account env account_id region) :
    row.accountId = account_id ∧ row.region = region := by
  rw [mem_list_functions] at h
  obtain ⟨f, _, hf⟩ := h
  obtain ⟨h1, h2, _, _⟩ := processFunction_fields env account_id region f
  rw [← hf]
  exact ⟨h1, h2⟩

/-- Filtering distributes over a flat map. -/
theorem filter_flatMap {α β : Type} (l : List α) (g : α → List β)
    (p : β → Bool) :
    (l.flatMap g).filter p = l.flatMap (fun a => (g a).filter p) := by
  induction l with
  | nil => rfl
  | cons a t ih => simp [List.flatMap_cons, List.filter_append, ih]

/-- Flat maps of pointwise-equal functions agree. -/
theorem flatMap_congr_fun {α β : Type} (l : List α) (g g' : α → List β)
    (h : ∀ a ∈ l, g a = g' a) : l.flatMap g = l.flatMap g' := by
  induction l with
  | nil => rfl
  | cons a t ih =>
      simp only [List.flatMap_cons]
      rw [h a (List.mem_cons_self a t), ih (fun b hb => h b (List.mem_cons_of_mem a hb))]

/-- The contribution of one member of a flat map appears contiguously in the
result. -/
theorem flatMap_split {α β : Type} (l : List α) (g : α → List β) (a : α)
    (h : a ∈ l) : ∃ pre post, l.flatMap g = pre ++ g a ++ post := by
  obtain ⟨s, t, rfl⟩ := List.append_of_mem h
  refine ⟨s.flatMap g, t.flatMap g, ?_⟩
  simp [List.flatMap_append]

/-! ### Claims -/

/-- C1: every Function Report Row's deprecation status is derived solely from
its runtime field via the Deprecation Catalog lookup; the one exception is a
row whose configuration fetch failed, which carries the unresolvable-runtime
sentinel "Error retrieving" together with the fixed status "Unknown". -/
theorem c1_status_derived_from_runtime (env : RegionEnv)
    (account_id region : String) (row : FunctionReportRow)
    (hrow : row ∈ list_functions_in_account env account_id region) :
    row.deprecationInfo = get_deprecation_info row.runtime
    ∨ (row.runtime = "Error retrieving" ∧ row.deprecationInfo = "Unknown") := by
  rw [mem_list_functions] at hrow
  obtain ⟨f, _, hf⟩ := hrow
  rw [← hf]
  cases hc : env.getConfig f.functionName with
  | ok rt? => left; simp [processFunction, hc]
  | error e => right; simp [processFunction, hc]

/-- Witness for C1 on the concrete one-function environment `c1Env`. -/
theorem c1_status_derived_from_runtime_witness :
    c1Row.deprecationInfo = get_deprecation_info c1Row.runtime
    ∨ (c1Row.runtime = "Error retrieving" ∧ c1Row.deprecationInfo = "Unknown") :=
  c1_status_derived_from_runtime c1Env "111111111111" "us-east-1" c1Row (by decide)

/-- C2: a known catalog key yields the three-way templated status determined
by its record; any non-key (the empty string included) yields exactly the
"No deprecation information available" sentinel; and no known key ever
produces that sentinel. -/
theorem c2_lookup_contract :
    (∀ p ∈ RUNTIME_DEPRECATIONS,
        get_deprecation_info p.1 =
          (if p.2.deprecated then "Deprecated since " ++ p.2.date
           else if p.2.date = "N/A" then "No scheduled deprecation"
           else "Will be deprecated on " ++ p.2.date))
    ∧ (∀ s : String, s ∉ RUNTIME_DEPRECATIONS.map Prod.fst →
        get_deprecation_info s = "No deprecation information available")
    ∧ (∀ p ∈ RUNTIME_DEPRECATIONS,
        get_deprecation_info p.1 ≠ "No deprecation information available") := by
  refine ⟨by decide, ?_, by decide⟩
  intro s hs
  unfold get_deprecation_info
  rw [lookup_eq_none_of_not_mem_keys _ _ hs]

/-- Witness for C2 at the key "nodejs4.3" and the non-key empty string. -/
theorem c2_lookup_contract_witness :
    get_deprecation_info "nodejs4.3" = "Deprecated since 2020-04-06"
    ∧ get_deprecation_info "" = "No deprecation information available" :=
  ⟨by rw [c2_lookup_contract.1 ("nodejs4.3", ⟨true, "2020-04-06"⟩) (by decide)]
      decide,
   c2_lookup_contract.2.1 "" (by decide)⟩

/-- C8: the catalog lookup is a pure, total, deterministic function: on every
input it returns the string dictated by the table (a formatted status for a
key, the fixed sentinel for a non-key) and never an error, and equal inputs
give equal outputs. -/
theorem c8_lookup_pure_total (s t : String) :
    ((∃ info, RUNTIME_DEPRECATIONS.lookup s = some info ∧
        get_deprecation_info s =
          (if info.deprecated then "Deprecated since " ++ info.date
           else if info.date = "N/A" then "No scheduled deprecation"
           else "Will be deprecated on " ++ info.date))
      ∨ (RUNTIME_DEPRECATIONS.lookup s = none ∧
          get_deprecation_info s = "No deprecation information available"))
    ∧ (s = t → get_deprecation_info s = get_deprecation_info t) := by
  constructor
  · cases hc : RUNTIME_DEPRECATIONS.lookup s with
    | none => exact Or.inr ⟨rfl, by unfold get_deprecation_info; rw [hc]⟩
    | some info => exact Or.inl ⟨info, rfl, by unfold get_deprecation_info; rw [hc]⟩
  · intro h
    rw [h]

/-- Witness for C8 at the input "python3.9" (given twice). -/
theorem c8_lookup_pure_total_witness :
    ((∃ info, RUNTIME_DEPRECATIONS.lookup "python3.9" = some info ∧
        get_deprecation_info "python3.9" =
          (if info.deprecated then "Deprecated since " ++ info.date
           else if info.date = "N/A" then "No scheduled deprecation"
           else "Will be deprecated on " ++ info.date))
      ∨ (RUNTIME_DEPRECATIONS.lookup "python3.9" = none ∧
          get_deprecation_info "python3.9" = "No deprecation information available"))
    ∧ get_deprecation_info "python3.9" = get_deprecation_info "python3.9" :=
  ⟨(c8_lookup_pure_total "python3.9" "python3.9").1,
   (c8_lookup_pure_total "python3.9" "python3.9").2 rfl⟩

/-- C9: every table entry marked deprecated stores a concrete date distinct
from the "N/A" sentinel, and consequently the string "Deprecated since N/A"
is unreachable as a lookup result. -/
theorem c9_deprecated_entries_have_dates (s : String) :
    (∀ p ∈ RUNTIME_DEPRECATIONS, p.2.deprecated = true → p.2.date ≠ "N/A")
    ∧ get_deprecation_info s ≠ "Deprecated since N/A" := by
  refine ⟨by decide, ?_⟩
  cases hc : RUNTIME_DEPRECATIONS.lookup s with
  | none =>
      unfold get_deprecation_info
      rw [hc]
      decide
  | some info =>
      have hmem : (s, info) ∈ RUNTIME_DEPRECATIONS := mem_of_lookup_eq_some _ _ _ hc
      have hfmt : ∀ p ∈ RUNTIME_DEPRECATIONS,
          (if p.2.deprecated then "Deprecated since " ++ p.2.date
           else if p.2.date = "N/A" then "No scheduled deprecation"
           else "Will be deprecated on " ++ p.2.date) ≠ "Deprecated since N/A" := by
        decide
      unfold get_deprecation_info
      rw [hc]
      exact hfmt (s, info) hmem

/-- Witness for C9 at the deprecated entry "nodejs". -/
theorem c9_deprecated_entries_have_dates_witness :
    (("2016-10-31" : String) ≠ "N/A")
    ∧ get_deprecation_info "nodejs" ≠ "Deprecated since N/A" :=
  ⟨(c9_deprecated_entries_have_dates "nodejs").1
      ("nodejs", ⟨true, "2016-10-31"⟩) (by decide) rfl,
   (c9_deprecated_entries_have_dates "nodejs").2⟩

/-- C3: when the configuration fetch fails for exactly one of the N listed
functions, the enumerator still returns N rows; the failing function's row
carries the runtime sentinel "Error retrieving" and status "Unknown", and
every other row's runtime comes from its fetched configuration with its
status resolved through the catalog. -/
theorem c3_isolated_config_failure (env : RegionEnv) (account_id region : String)
    (i : Nat) (hi : i < env.yieldedPages.flatten.length)
    (hfail : env.getConfig ((env.yieldedPages.flatten.get ⟨i, hi⟩).functionName)
        = Except.error ())
    (hok : ∀ (j : Nat) (hj : j < env.yieldedPages.flatten.length), j ≠ i →
        (env.getConfig ((env.yieldedPages.flatten.get ⟨j, hj⟩).functionName)).isOk
          = true) :
    (list_functions_in_account env account_id region).length
        = env.yieldedPages.flatten.length
    ∧ ∀ (j : Nat)
        (hj : j < (list_functions_in_account env account_id region).length),
        (j = i →
          ((list_functions_in_account env account_id region).get ⟨j, hj⟩).runtime
              = "Error retrieving"
          ∧ ((list_functions_in_account env account_id region).get
                ⟨j, hj⟩).deprecationInfo = "Unknown")
        ∧ (j ≠ i →
          ∃ rt?, env.getConfig
                (((list_functions_in_account env account_id region).get
                    ⟨j, hj⟩).functionName)
              = Except.ok rt?
            ∧ ((list_functions_in_account env account_id region).get
                  ⟨j, hj⟩).runtime = rt?.getD "Unknown"
            ∧ ((list_functions_in_account env account_id region).get
                  ⟨j, hj⟩).deprecationInfo
                = get_deprecation_info
                    (((list_functions_in_account env account_id region).get
                        ⟨j, hj⟩).runtime)) := by
  have hlen : (list_functions_in_account env account_id region).length
      = env.yieldedPages.flatten.length := by
    rw [list_functions_eq_map, List.length_map]
  refine ⟨hlen, ?_⟩
  intro j hj
  have hj2 : j < env.yieldedPages.flatten.length := by
    rw [← hlen]
    exact hj
  have hrow : (list_functions_in_account env account_id region).get ⟨j, hj⟩
      = processFunction env account_id region
          (env.yieldedPages.flatten.get ⟨j, hj2⟩) := by
    simp only [list_functions_eq_map, List.get_eq_getElem, List.getElem_map]
  constructor
  · intro hji
    subst hji
    rw [hrow]
    have hfail2 : env.getConfig
        ((env.yieldedPages.flatten.get ⟨j, hj2⟩).functionName)
        = Except.error () := hfail
    simp only [processFunction, hfail2]
    exact ⟨trivial, trivial⟩
  · intro hji
    have hjok := hok j hj2 hji
    cases hc : env.getConfig ((env.yieldedPages.flatten.get ⟨j, hj2⟩).functionName) with
    | error e =>
        rw [hc] at hjok
        simp [Except.isOk, Except.toBool] at hjok
    | ok rt? =>
        refine ⟨rt?, ?_, ?_, ?_⟩
        · rw [hrow,
            (processFunction_fields env account_id region
              (env.yieldedPages.flatten.get ⟨j, hj2⟩)).2.2.1, hc]
        · rw [hrow]
          simp only [processFunction, hc]
        · rw [hrow]
          simp only [processFunction, hc]

/-- Witness for C3: three functions, the middle one's fetch fails. -/
theorem c3_isolated_config_failure_witness :
    (list_functions_in_account c3Env "111111111111" "us-east-1").length = 3
    ∧ ((list_functions_in_account c3Env "111111111111" "us-east-1").get
        ⟨1, by decide⟩).runtime = "Error retrieving"
    ∧ ((list_functions_in_account c3Env "111111111111" "us-east-1").get
        ⟨1, by decide⟩).deprecationInfo = "Unknown"
    ∧ ((list_functions_in_account c3Env "111111111111" "us-east-1").get
        ⟨0, by decide⟩).deprecationInfo
      = get_deprecation_info
          (((list_functions_in_account c3Env "111111111111" "us-east-1").get
              ⟨0, by decide⟩).runtime) := by
  have h := c3_isolated_config_failure c3Env "111111111111" "us-east-1" 1
    (by decide) rfl (by decide)
  refine ⟨h.1, ((h.2 1 (by decide)).1 rfl).1, ((h.2 1 (by decide)).1 rfl).2, ?_⟩
  obtain ⟨rt?, h1, h2, h3⟩ := (h.2 0 (by decide)).2 (by decide)
  exact h3

/-- C4: when the paginated listing itself fails after yielding k pages, the
enumerator returns exactly the rows accumulated from those k pages — a
prefix of what the no-failure enumeration would return — and never
propagates the failure; moreover the aggregate rows of every other
account/region pair are unaffected by that pair's inventory oracle. -/
theorem c4_listing_failure_partial (env : RegionEnv) (account_id region : String)
    (k : Nat) (hfail : env.failAfter = some k) :
    list_functions_in_account env account_id region
        = ((env.fullPages.take k).flatten).map
            (processFunction env account_id region)
    ∧ (∃ rest,
        list_functions_in_account ⟨env.fullPages, none, env.getConfig⟩
            account_id region
          = list_functions_in_account env account_id region ++ rest)
    ∧ (∀ (E Ep : OrgEnv) (a0 r0 : String),
        Ep.accounts = E.accounts → Ep.regions = E.regions →
        Ep.assumeRoleOk = E.assumeRoleOk →
        (∀ a r, ¬(a = a0 ∧ r = r0) → Ep.regionEnv a r = E.regionEnv a r) →
        (lambda_handler Ep).body.filter
            (fun row => !(row.accountId == a0 && row.region == r0))
          = (lambda_handler E).body.filter
            (fun row => !(row.accountId == a0 && row.region == r0))) := by
  have hpart1 : list_functions_in_account env account_id region
      = ((env.fullPages.take k).flatten).map
          (processFunction env account_id region) := by
    rw [list_functions_eq_map]
    simp [RegionEnv.yieldedPages, hfail]
  refine ⟨hpart1, ?_, ?_⟩
  · refine ⟨((env.fullPages.drop k).flatten).map
      (processFunction env account_id region), ?_⟩
    have hpf : processFunction (⟨env.fullPages, none, env.getConfig⟩ : RegionEnv)
        account_id region = processFunction env account_id region :=
      funext (processFunction_congr env ⟨env.fullPages, none, env.getConfig⟩
        account_id region rfl)
    rw [list_functions_eq_map, hpart1, hpf]
    show env.fullPages.flatten.map (processFunction env account_id region) = _
    conv_lhs => rw [← List.take_append_drop k env.fullPages]
    rw [List.flatten_append, List.map_append]
  · intro E Ep a0 r0 hacc hreg hass henv
    rw [lambda_handler_body_eq, lambda_handler_body_eq, hacc, hreg, hass]
    rw [filter_flatMap, filter_flatMap]
    apply flatMap_congr_fun
    intro a ha
    rw [filter_flatMap, filter_flatMap]
    apply flatMap_congr_fun
    intro r hr
    by_cases hp : a = a0 ∧ r = r0
    · obtain ⟨rfl, rfl⟩ := hp
      have hnil : ∀ (renv : RegionEnv),
          (list_functions_in_account renv a r).filter
            (fun row => !(row.accountId == a && row.region == r)) = [] := by
        intro renv
        rw [List.filter_eq_nil_iff]
        intro row hrow
        obtain ⟨h1, h2⟩ := row_fields_of_mem _ _ _ _ hrow
        simp [h1, h2]
      rw [hnil, hnil]
    · rw [henv a r hp]

/-- Witness for C4: two one-function pages, the listing fails after the
first page. -/
theorem c4_listing_failure_partial_witness :
    list_functions_in_account c4Env "222222222222" "eu-west-1"
        = ((c4Env.fullPages.take 1).flatten).map
            (processFunction c4Env "222222222222" "eu-west-1")
    ∧ ∃ rest,
        list_functions_in_account ⟨c4Env.fullPages, none, c4Env.getConfig⟩
            "222222222222" "eu-west-1"
          = list_functions_in_account c4Env "222222222222" "eu-west-1" ++ rest := by
  have h := c4_listing_failure_partial c4Env "222222222222" "eu-west-1" 1 rfl
  exact ⟨h.1, h.2.1⟩

/-- C5: when role assumption fails for account A but succeeds for account B,
the run still returns status 200, no aggregate row is attributable to A, and
the aggregate contains B's full expected rows contiguously. -/
theorem c5_account_isolation (env : OrgEnv) (A B : String)
    (_hA : A ∈ env.accounts) (hB : B ∈ env.accounts)
    (hAfail : env.assumeRoleOk A = false) (hBok : env.assumeRoleOk B = true) :
    (lambda_handler env).statusCode = 200
    ∧ (∀ row ∈ (lambda_handler env).body, row.accountId ≠ A)
    ∧ (∃ pre post, (lambda_handler env).body
        = pre ++ (env.regions.flatMap fun region =>
            list_functions_in_account (env.regionEnv B region) B region)
          ++ post) := by
  refine ⟨rfl, ?_, ?_⟩
  · intro row hrow
    rw [lambda_handler_body_eq, List.mem_flatMap] at hrow
    obtain ⟨a, ha, hrow⟩ := hrow
    rw [List.mem_flatMap] at hrow
    obtain ⟨r, hr, hrow⟩ := hrow
    have hacc := (row_fields_of_mem _ _ _ _ hrow).1
    have haok : env.assumeRoleOk a = true := (List.mem_filter.mp ha).2
    intro hAeq
    rw [hacc] at hAeq
    rw [hAeq, hAfail] at haok
    exact Bool.false_ne_true haok
  · have hBfilter : B ∈ env.accounts.filter env.assumeRoleOk :=
      List.mem_filter.mpr ⟨hB, hBok⟩
    obtain ⟨pre, post, hsplit⟩ :=
      flatMap_split (env.accounts.filter env.assumeRoleOk)
        (fun account_id => env.regions.flatMap fun region =>
          list_functions_in_account (env.regionEnv account_id region)
            account_id region)
        B hBfilter
    exact ⟨pre, post, by rw [lambda_handler_body_eq, hsplit]⟩

/-- Witness for C5 on the two-account organization `c5Env`. -/
theorem c5_account_isolation_witness :
    (lambda_handler c5Env).statusCode = 200
    ∧ ((⟨"222222222222", "us-east-1", "h1", "arn:h1", "java21",
          "No scheduled deprecation"⟩ : FunctionReportRow).accountId
        ≠ "111111111111")
    ∧ ∃ pre post, (lambda_handler c5Env).body
        = pre ++ (c5Env.regions.flatMap fun region =>
            list_functions_in_account (c5Env.regionEnv "222222222222" region)
              "222222222222" region) ++ post := by
  have h := c5_account_isolation c5Env "111111111111" "222222222222"
    (by decide) (by decide) (by decide) (by decide)
  exact ⟨h.1, h.2.1 _ (by decide), h.2.2⟩

/-- C6: whenever the top-level listings succeed (they are the inputs of the
orchestrator environment), the handler returns a status-200 envelope around
the aggregate; in particular zero accounts yield zero rows inside a success
envelope. -/
theorem c6_success_envelope (env : OrgEnv) :
    (lambda_handler env).statusCode = 200
    ∧ (env.accounts = [] → (lambda_handler env).body = []) := by
  refine ⟨rfl, ?_⟩
  intro h
  simp [lambda_handler, h]

/-- Witness for C6 on the zero-account organization `c6Env`. -/
theorem c6_success_envelope_witness :
    (lambda_handler c6Env).statusCode = 200 ∧ (lambda_handler c6Env).body = [] :=
  ⟨(c6_success_envelope c6Env).1, (c6_success_envelope c6Env).2 rfl⟩

/-- C7: the aggregate is the concatenation, over the processed accounts in
directory order and per account over the regions in listing order, of the
enumerator's per-pair row lists, and each per-pair list preserves the
upstream function-listing order (it is a map over the yielded summaries). -/
theorem c7_aggregate_order (env : OrgEnv) :
    (lambda_handler env).body
      = (env.accounts.filter env.assumeRoleOk).flatMap
          (fun account_id => env.regions.flatMap fun region =>
            list_functions_in_account (env.regionEnv account_id region)
              account_id region)
    ∧ ∀ (renv : RegionEnv) (account_id region : String),
        list_functions_in_account renv account_id region
          = renv.yieldedPages.flatten.map
              (processFunction renv account_id region) :=
  ⟨lambda_handler_body_eq env,
   fun renv account_id region => list_functions_eq_map renv account_id region⟩

/-- C10: every enumerator row carries the account and region it was invoked
with together with a listed function's name and ARN, and every aggregate row
is attributable to the account/region pair that produced it: it belongs to
the per-pair enumeration of its own accountId/region fields. -/
theorem c10_row_attribution (env : OrgEnv) :
    (∀ (renv : RegionEnv) (account_id region : String),
        ∀ row ∈ list_functions_in_account renv account_id region,
          row.accountId = account_id ∧ row.region = region
          ∧ ∃ f ∈ renv.yieldedPages.flatten,
              row.functionName = f.functionName
              ∧ row.functionArn = f.functionArn)
    ∧ (∀ row ∈ (lambda_handler env).body,
        row.accountId ∈ env.accounts ∧ row.region ∈ env.regions
        ∧ row ∈ list_functions_in_account
            (env.regionEnv row.accountId row.region)
            row.accountId row.region) := by
  constructor
  · intro renv account_id region row hrow
    rw [mem_list_functions] at hrow
    obtain ⟨f, hf, hpf⟩ := hrow
    obtain ⟨h1, h2, h3, h4⟩ := processFunction_fields renv account_id region f
    rw [← hpf]
    exact ⟨h1, h2, f, hf, h3, h4⟩
  · intro row hrow
    rw [lambda_handler_body_eq, List.mem_flatMap] at hrow
    obtain ⟨a, ha, hrow⟩ := hrow
    rw [List.mem_flatMap] at hrow
    obtain ⟨r, hr, hrow⟩ := hrow
    obtain ⟨h1, h2⟩ := row_fields_of_mem _ _ _ _ hrow
    have haacc : a ∈ env.accounts := (List.mem_filter.mp ha).1
    rw [h1, h2]
    exact ⟨haacc, hr, hrow⟩

/-- Witness for C10 on the one-account organization `c10Env`. -/
theorem c10_row_attribution_witness :
    c10Row.accountId ∈ c10Env.accounts ∧ c10Row.region ∈ c10Env.regions
    ∧ c10Row ∈ list_functions_in_account
        (c10Env.regionEnv c10Row.accountId c10Row.region)
        c10Row.accountId c10Row.region :=
  (c10_row_attribution c10Env).2 c10Row (by decide)
